import Mathlib

/-!
# dirwatcher: a shallow embedding of the scan, diff and task-execution code

The development follows the Go sources

* `internal/dirwatch.go`   (`patternCount`, `WatchDirectory`),
* `internal/repository.go` (`MongoRepository` and its methods),
* `internal/tasks.go`      (`GetConfigs`, `HandleDirWatcherTask`),
* `cmd/web/main.go`        (the `GET /results` route).

Library code the sources call (the regular-expression engine, `os.ReadFile`,
`filepath.Walk`, `strconv`, `encoding/json`, the MongoDB driver) is represented
by the values it hands to the program, documented where each is introduced.
-/

namespace Dirwatcher

/-! ## Outcomes of Go calls that may panic -/

/-- Outcome of a Go call.  `ok a` is a normal return.  `panicked v` is a panic
raised on the goroutine of the caller, which a deferred `recover` of the caller
intercepts.  `crashed` is a panic raised on a goroutine that the call started:
no `recover` of the caller runs for it and the Go runtime ends the process. -/
inductive Outcome (α : Type) where
  | ok (a : α)
  | panicked (v : String)
  | crashed
  deriving Repr, DecidableEq

/-! ## `internal/dirwatch.go` -/

/-- The `Report` struct. -/
structure Report where
  Occurrence : Nat
  NewFiles : List String
  RemovedFiles : List String
  Files : List String
  deriving Repr, DecidableEq

/-- A compiled `*regexp.Regexp`; the program only calls `FindAllIndex(b, -1)`,
which yields the index pairs of the successive non-overlapping matches. -/
structure Regexp where
  FindAllIndex : List UInt8 → List (Nat × Nat)

/-- The `fs.FileInfo` handed to the walk callback; only `IsDir()` is used. -/
structure FileInfo where
  IsDir : Bool
  deriving Repr, DecidableEq

/-- One invocation `fn(path, info, err)` made by `filepath.Walk`.  `info` is
`none` when `Lstat` failed (Go passes a nil interface); `err` is the error
reported for the path, if any. -/
structure WalkCall where
  path : String
  info : Option FileInfo
  err : Option String
  deriving Repr, DecidableEq

/-- What the operating system and the standard library answer during one scan:
`Compile` is `regexp.Compile`, `ReadFile` is `os.ReadFile`, and `Walk root` is
the sequence of callback invocations `filepath.Walk root` makes for as long as
the callback keeps returning nil (`walkNode` below derives it from a tree). -/
structure World where
  Compile : String → Except String Regexp
  ReadFile : String → Except String (List UInt8)
  Walk : String → List WalkCall

/-- What `Lstat` and `ReadDir` find at a path: a file, a path whose `Lstat`
fails, or a directory with the error of reading it (if any) and its entries in
lexical order. -/
inductive Node where
  | file (name : String)
  | broken (name : String) (err : String)
  | dir (name : String) (readErr : Option String) (children : List Node)

/-- The name of a directory entry. -/
def Node.name : Node → String
  | .file n => n
  | .broken n _ => n
  | .dir n _ _ => n

mutual
/-- The invocations `filepath.Walk` makes at and below `path` for a callback
that returns nil: a file is handed over with its `FileInfo`; a path whose
`Lstat` failed is handed over with a nil `FileInfo` and the error; a directory
is handed over with its `FileInfo` and the error of reading it, and the walk
descends into it only when that error is nil. -/
def walkNode (path : String) : Node → List WalkCall
  | .file _ => [⟨path, some ⟨false⟩, none⟩]
  | .broken _ err => [⟨path, none, some err⟩]
  | .dir _ readErr children =>
    ⟨path, some ⟨true⟩, readErr⟩ ::
      (match readErr with
        | some _ => []
        | none => walkNodes path children)
/-- The invocations for the entries of the directory `dirPath`, in order. -/
def walkNodes (dirPath : String) : List Node → List WalkCall
  | [] => []
  | n :: ns => walkNode (dirPath ++ "/" ++ n.name) n ++ walkNodes dirPath ns
end

/-- A Go `map[string]bool` whose values are all `true`, kept as the list of its
keys in order of first insertion.  Go leaves the iteration order of a map
unspecified, so statements about lists obtained by ranging over a map are made
up to membership. -/
abbrev StringSet := List String

/-- The assignment `m[k] = true`. -/
def mapSet (m : StringSet) (k : String) : StringSet :=
  if k ∈ m then m else m ++ [k]

/-- The function `patternCount`: read the file, panic when it cannot be read,
otherwise count the matches. -/
def patternCount (w : World) (file : String) (r : Regexp) : Outcome Nat :=
  match w.ReadFile file with
  | .error e => .panicked e
  | .ok b => .ok (r.FindAllIndex b).length

/-- The variables the walk callback of `WatchDirectory` closes over and
changes: `foundFiles`, `newFiles`, and the values sent on channel `in`. -/
structure WalkState where
  foundFiles : StringSet
  newFiles : List String
  sent : List String
  deriving Repr, DecidableEq

/-- The callback passed to `filepath.Walk`.  It does not look at `err`; calling
`info.IsDir()` on a nil `info` panics.  The second component of the result is
the error the callback returns, which is nil on every path. -/
def walkFn (prevFilesMap : StringSet) (st : WalkState) (c : WalkCall) :
    Outcome (WalkState × Option String) :=
  match c.info with
  | none => .panicked "invalid memory address or nil pointer dereference"
  | some info =>
    if info.IsDir then .ok (st, none)
    else
      .ok ({ foundFiles := mapSet st.foundFiles c.path
             newFiles := if c.path ∈ prevFilesMap then st.newFiles else st.newFiles ++ [c.path]
             sent := st.sent ++ [c.path] }, none)

/-- Run `filepath.Walk` over its sequence of callback invocations: the walk stops
at the first invocation whose callback returns a non-nil error and returns that
error; a panic of the callback unwinds the walk. -/
def walkAll (prevFilesMap : StringSet) : WalkState → List WalkCall →
    Outcome (WalkState × Option String)
  | st, [] => .ok (st, none)
  | st, c :: cs =>
    match walkFn prevFilesMap st c with
    | .ok (st', none) => walkAll prevFilesMap st' cs
    | .ok (st', some e) => .ok (st', some e)
    | .panicked v => .panicked v
    | .crashed => .crashed

/-- Node 2 of the pipeline: for every path received on `in`, in order, send
`patternCount` of it on `counts`. -/
def countAll (w : World) (r : Regexp) : List String → Outcome (List Nat)
  | [] => .ok []
  | f :: fs =>
    match patternCount w f r with
    | .ok n =>
      match countAll w r fs with
      | .ok ns => .ok (n :: ns)
      | .panicked v => .panicked v
      | .crashed => .crashed
    | .panicked v => .panicked v
    | .crashed => .crashed

/-- The function `WatchDirectory`.

`regexp.MustCompile` panics on the goroutine of the caller.  Node 1 (the walk)
and Node 2 (the counting) run on goroutines of their own, so a panic there
(`info.IsDir()` on nil, `panic(err)` after the walk, `panic(err)` in
`patternCount`) ends the process.  The two nodes overlap in time; whether one of
them panics, and the report when neither does, do not depend on the
interleaving, so the walk is run to its end before the counting.  Node 3 adds
the counts up; the Go `int` counter cannot wrap, as each match needs a byte
position of its own in a file that was read. -/
def WatchDirectory (w : World) (dir : String) (s : String) (prevFiles : List String) :
    Outcome Report :=
  match w.Compile s with
  | .error e => .panicked e
  | .ok r =>
    let prevFilesMap : StringSet := prevFiles.foldl mapSet []
    match walkAll prevFilesMap ⟨[], [], []⟩ (w.Walk dir) with
    | .panicked _ => .crashed
    | .crashed => .crashed
    | .ok (_, some _) => .crashed
    | .ok (st, none) =>
      match countAll w r st.sent with
      | .panicked _ => .crashed
      | .crashed => .crashed
      | .ok counts =>
        let counter := counts.foldl (fun counter c => counter + c) 0
        let deletedFiles := prevFilesMap.filter (fun k => decide (k ∉ st.foundFiles))
        .ok { Occurrence := counter
              NewFiles := st.newFiles
              RemovedFiles := deletedFiles
              Files := st.foundFiles }

/-! ### Vocabulary for the statements about `WatchDirectory` -/

/-- The non-directory paths a walk visits, in the order the walk emits them. -/
def visited (calls : List WalkCall) : List String :=
  calls.filterMap (fun c =>
    match c.info with
    | some info => if info.IsDir then none else some c.path
    | none => none)

/-- The match count of one readable file (0 for a file that cannot be read). -/
def matchCount (w : World) (r : Regexp) (file : String) : Nat :=
  match patternCount w file r with
  | .ok n => n
  | _ => 0

/-- Whether `os.ReadFile` succeeds on a path. -/
def readable (w : World) (file : String) : Bool :=
  match w.ReadFile file with
  | .ok _ => true
  | .error _ => false

/-- A walk without faults: `Lstat` succeeded for every path handed to the
callback and every visited file can be read. -/
def Healthy (w : World) (dir : String) : Prop :=
  (∀ c ∈ w.Walk dir, c.info ≠ none) ∧
  (∀ f ∈ visited (w.Walk dir), readable w f = true)

instance (w : World) (dir : String) : Decidable (Healthy w dir) := by
  unfold Healthy
  infer_instance

/-- The same world with another sequence of callback invocations. -/
def World.withWalk (w : World) (calls : List WalkCall) : World :=
  { w with Walk := fun _ => calls }

/-! ## `internal/repository.go` -/

/-- A Go `float64`, held as its IEEE-754 bit pattern (a number below `2^64`).
No float arithmetic is modelled: the program only moves these values around,
tests them against zero (`omitempty`) and hands them to library formatters. -/
structure Float64 where
  bits : Nat
  deriving Repr, DecidableEq

/-- The zero value `+0.0`. -/
def Float64.zero : Float64 := ⟨0⟩

/-- The Go test `x == 0`: true of `+0.0` and of `-0.0`. -/
def Float64.isZero (x : Float64) : Bool := x.bits % 2 ^ 63 == 0

/-- Neither NaN nor an infinity: the exponent field is not all ones. -/
def Float64.isFinite (x : Float64) : Bool := (x.bits / 2 ^ 52) % 2 ^ 11 != 2047

/-- The `TaskConfig` struct. -/
structure TaskConfig where
  Interval : Float64
  MagicWord : String
  deriving Repr, DecidableEq

/-- A `time.Duration`: a count of nanoseconds. -/
abbrev Duration := Int

/-- The `Result` struct.  `RunTime` is the `float64` that `Duration.Seconds()`
returns; it is kept as the duration itself, in nanoseconds. -/
structure Result where
  StartTime : Int
  EndTime : Int
  RunTime : Duration
  Status : String
  MagicWord : String
  Occurrence : Nat
  Files : List String
  NewFiles : List String
  RemovedFiles : List String
  Error : String
  deriving Repr, DecidableEq

/-- The zero value `Result{}`. -/
def Result.zero : Result :=
  { StartTime := 0, EndTime := 0, RunTime := 0, Status := "", MagicWord := "",
    Occurrence := 0, Files := [], NewFiles := [], RemovedFiles := [], Error := "" }

/-- The zero value `TaskConfig{}`. -/
def TaskConfig.zero : TaskConfig := { Interval := Float64.zero, MagicWord := "" }

/-- A `primitive.ObjectID`. -/
abbrev ObjectID := Nat

/-- The BSON document the driver writes for a `TaskConfig`: the tag
`bson:"interval,omitempty"` leaves the field out when the interval `== 0`. -/
structure TaskDoc where
  interval : Option Float64
  magicWord : String
  deriving Repr, DecidableEq

/-- Encoding of a `TaskConfig` under its `bson` tags. -/
def TaskDoc.encode (c : TaskConfig) : TaskDoc :=
  { interval := if c.Interval.isZero then none else some c.Interval
    magicWord := c.MagicWord }

/-- Decoding into a zero `TaskConfig`: an absent field keeps the zero value. -/
def TaskDoc.decode (d : TaskDoc) : TaskConfig :=
  { Interval := d.interval.getD Float64.zero, MagicWord := d.magicWord }

/-- The database behind a `MongoRepository`: the collection `tasks` (created
capped, with at most one document) and the collection `results`, each in
natural order.  A `Result` has no omitted fields, so its document is the
`Result` itself next to its `_id`. -/
structure DB where
  tasks : List TaskDoc
  results : List (ObjectID × Result)
  deriving Repr, DecidableEq

/-- Library functions of `strconv` and `fmt` on `float64`:
`ParseFloat` is `strconv.ParseFloat(s, 64)` and `FormatV` is the verb `%v`. -/
structure Lib where
  ParseFloat : String → Except String Float64
  FormatV : Float64 → String

/-- The answer of the driver to `InsertOne`.  `inserted id`: the document was
written under the generated `_id`.  `unacknowledged id err`: the write was sent
without acknowledgement, the driver returns both a result and an error.
`failed err`: any other error, for which the driver returns a nil result. -/
inductive InsertReply where
  | inserted (id : ObjectID)
  | unacknowledged (id : ObjectID) (err : String)
  | failed (err : String)
  deriving Repr, DecidableEq

/-- `InsertOne` on a capped collection of at most one document: the document
already there, if any, is evicted. -/
def cappedInsert (_tasks : List TaskDoc) (doc : TaskDoc) : List TaskDoc := [doc]

/-- The method `GetTaskConfig`.  `findErr` is an error of `FindOne` other than
`mongo.ErrNoDocuments`, `insertErr` an error of `InsertOne`; `getenv` is
`os.Getenv`. -/
def GetTaskConfig (lib : Lib) (getenv : String → String) (db : DB)
    (findErr insertErr : Option String) : DB × TaskConfig × Option String :=
  match findErr with
  | some err => (db, TaskConfig.zero, some err)
  | none =>
    match db.tasks with
    | doc :: _ => (db, doc.decode, none)
    | [] =>
      match lib.ParseFloat (getenv "DEFAULT_TASK_INTERVAL") with
      | .error err => (db, TaskConfig.zero, some err)
      | .ok interval =>
        let taskConfig : TaskConfig :=
          { Interval := interval, MagicWord := getenv "DEFAULT_SEARCH_STRING" }
        match insertErr with
        | some err => (db, taskConfig, some err)
        | none =>
          ({ db with tasks := cappedInsert db.tasks (TaskDoc.encode taskConfig) },
            taskConfig, none)

/-- The method `PutTaskConfig`. -/
def PutTaskConfig (db : DB) (insertErr : Option String) (taskConfig : TaskConfig) :
    DB × Option String :=
  match insertErr with
  | some err => (db, some err)
  | none => ({ db with tasks := cappedInsert db.tasks (TaskDoc.encode taskConfig) }, none)

/-- Reduce an integer to the range of a Go `int64` (two's complement). -/
def wrap64 (x : Int) : Int := (x + 2 ^ 63) % 2 ^ 64 - 2 ^ 63

/-- The documents of `results` sorted by `startTime`, greatest first.  The
server leaves the order among documents with equal `startTime` open; here they
keep their natural order. -/
def sortByStartTimeDesc (rs : List Result) : List Result :=
  rs.insertionSort (fun a b => a.StartTime ≥ b.StartTime)

/-- The method `GetResults`: `Find` with sort `{startTime: -1}`, limit `size`
and skip `page * size` (an `int64` product).  The server rejects a negative
skip; a limit of 0 means no limit and a negative limit `-n` returns at most `n`
documents.  `findErr` is an error of the driver. -/
def GetResults (db : DB) (findErr : Option String) (page size : Int) :
    Option (List Result) × Option String :=
  match findErr with
  | some err => (none, some err)
  | none =>
    let skip := wrap64 (page * size)
    if skip < 0 then (none, some "skip value must be non-negative")
    else
      let rest := (sortByStartTimeDesc (db.results.map Prod.snd)).drop skip.toNat
      (some (if size = 0 then rest else rest.take size.natAbs), none)

/-- The method `AddResult`: `InsertOne`, then `res.InsertedID` on the result,
which is a nil pointer dereference when the driver returned no result.  An
`_id` that is already taken is a duplicate-key error of the server. -/
def AddResult (db : DB) (reply : InsertReply) (result : Result) :
    Outcome (DB × ObjectID × Option String) :=
  match reply with
  | .failed _ => .panicked "invalid memory address or nil pointer dereference"
  | .unacknowledged id err =>
    if id ∈ db.results.map Prod.fst then .ok (db, id, some err)
    else .ok ({ db with results := db.results ++ [(id, result)] }, id, some err)
  | .inserted id =>
    if id ∈ db.results.map Prod.fst then
      .panicked "invalid memory address or nil pointer dereference"
    else .ok ({ db with results := db.results ++ [(id, result)] }, id, none)

/-- Write all fields of `result` (`$set`) into the first document whose `_id`
is `id`; no document matching is not an error. -/
def setFirst (id : ObjectID) (result : Result) :
    List (ObjectID × Result) → List (ObjectID × Result)
  | [] => []
  | d :: ds => if d.1 = id then (id, result) :: ds else d :: setFirst id result ds

/-- The method `UpdateResult`. -/
def UpdateResult (db : DB) (updateErr : Option String) (id : ObjectID) (result : Result) :
    DB × Option String :=
  match updateErr with
  | some err => (db, some err)
  | none => ({ db with results := setFirst id result db.results }, none)

/-- What `FindOne` with sort `{endTime: -1}` and an empty filter selects: a
document with the greatest `endTime`, whatever its status.  The server leaves
the choice among documents with equal `endTime` open; here it is the first of
them in natural order. -/
def topByEndTime : List (ObjectID × Result) → Option Result
  | [] => none
  | d :: ds =>
    match topByEndTime ds with
    | none => some d.2
    | some best => if best.EndTime > d.2.EndTime then some best else some d.2

/-- The method `GetLastResult`.  `findErr` is an error of `FindOne` other than
`mongo.ErrNoDocuments`. -/
def GetLastResult (db : DB) (findErr : Option String) : Result × Option String :=
  match findErr with
  | some err => (Result.zero, some err)
  | none =>
    match topByEndTime db.results with
    | none => (Result.zero, none)
    | some r => (r, none)

/-! ## `encoding/json` on a `TaskConfig` -/

/-- A JSON value as far as decoding into a `TaskConfig` tells values apart:
`number x` is a number whose text parses to the `float64` `x`, and `other` is
any other value (a boolean, an array, an object, a number out of range). -/
inductive JValue where
  | null
  | number (x : Float64)
  | string (s : String)
  | other
  deriving Repr, DecidableEq

/-- The bytes of a task payload, read as JSON: not JSON at all, a top-level
value that is not an object, or an object with its members in order. -/
inductive Payload where
  | invalid (err : String)
  | value (v : JValue)
  | object (members : List (String × JValue))
  deriving Repr, DecidableEq

/-- The function `json.Marshal` on a `TaskConfig`, under the tags
`json:"interval,omitempty"` and `json:"magicWord"`: NaN and the infinities are
unsupported values, and an interval `== 0` is left out. -/
def Marshal (c : TaskConfig) : Except String Payload :=
  if c.Interval.isFinite then
    .ok (.object
      ((if c.Interval.isZero then [] else [("interval", JValue.number c.Interval)]) ++
        [("magicWord", JValue.string c.MagicWord)]))
  else .error "json: unsupported value"

/-- Whether an object key selects the struct field with the given JSON name:
the match is case-insensitive. -/
def keyMatches (name key : String) : Bool :=
  key.toList.map Char.toLower == name.toList.map Char.toLower

/-- Decode one object member into the `TaskConfig` being filled.  A `null`
leaves the field as it is; a value of the wrong type leaves the field as it is
and is recorded as an error, after which decoding goes on. -/
def decodeMember (acc : TaskConfig × Option String) (m : String × JValue) :
    TaskConfig × Option String :=
  if keyMatches "interval" m.1 then
    match m.2 with
    | .number x => ({ acc.1 with Interval := x }, acc.2)
    | .null => acc
    | _ => (acc.1, acc.2.orElse
        (fun _ => some "json: cannot unmarshal value into Go struct field TaskConfig.interval"))
  else if keyMatches "magicWord" m.1 then
    match m.2 with
    | .string s => ({ acc.1 with MagicWord := s }, acc.2)
    | .null => acc
    | _ => (acc.1, acc.2.orElse
        (fun _ => some "json: cannot unmarshal value into Go struct field TaskConfig.magicWord"))
  else acc

/-- The function `json.Unmarshal` into a zero `TaskConfig`. -/
def Unmarshal (p : Payload) : Except String TaskConfig :=
  match p with
  | .invalid err => .error err
  | .value .null => .ok TaskConfig.zero
  | .value _ => .error "json: cannot unmarshal value into Go value of type internal.TaskConfig"
  | .object members =>
    match members.foldl decodeMember (TaskConfig.zero, none) with
    | (c, none) => .ok c
    | (_, some err) => .error err

/-! ## `internal/tasks.go` -/

/-- The constant `DirWatcherTask`. -/
def DirWatcherTask : String := "dirwatcher:run"

/-- An `asynq.Task`: a type name and a payload. -/
structure Task where
  typename : String
  payload : Payload
  deriving Repr, DecidableEq

/-- An `asynq.PeriodicTaskConfig`. -/
structure PeriodicTaskConfig where
  Cronspec : String
  Task : Task
  deriving Repr, DecidableEq

/-- The part of the `Repository` interface that `GetConfigs` uses, for an
implementation with state `σ`. -/
structure Repository (σ : Type) where
  GetTaskConfig : σ → σ × TaskConfig × Option String

/-- The method `GetConfigs` of `DynamicTaskConfigProvider`. -/
def GetConfigs {σ : Type} (lib : Lib) (repo : Repository σ) (st : σ) :
    σ × List PeriodicTaskConfig × Option String :=
  match repo.GetTaskConfig st with
  | (st', _, some err) => (st', [], some err)
  | (st', c, none) =>
    match Marshal c with
    | .error err => (st', [], some err)
    | .ok payload =>
      let config : PeriodicTaskConfig :=
        { Cronspec := "@every " ++ lib.FormatV c.Interval ++ "s"
          Task := { typename := DirWatcherTask, payload := payload } }
      (st', [] ++ [config], none)

/-- A reading of `time.Now()`: the wall clock (seconds since the epoch and
nanoseconds within the second) and the monotonic clock (nanoseconds). -/
structure Time where
  sec : Int
  nsec : Nat
  mono : Int
  deriving Repr, DecidableEq

/-- The method `Time.Unix`. -/
def Time.Unix (t : Time) : Int := t.sec

/-- The method `Time.Sub` on two readings of `time.Now()`: the difference of
the monotonic readings, saturated to the range of a `Duration`. -/
def Time.Sub (t u : Time) : Duration :=
  max (-(2 ^ 63)) (min (2 ^ 63 - 1) (t.mono - u.mono))

/-- The wall-clock instant of a reading, in nanoseconds since the epoch. -/
def Time.wallNanos (t : Time) : Int := t.sec * 1000000000 + (t.nsec : Int)

/-- A call made on the repository. -/
inductive RepoCall where
  | AddResult (result : Result)
  | GetLastResult
  | UpdateResult (id : ObjectID) (result : Result)
  | GetResults (page size : Int)
  | Close
  deriving Repr, DecidableEq

/-- What the surroundings answer during one run of the handler: the two
readings of the clock (`endTime` is read either on the success path or inside
the deferred function), the error of `NewRepository`, the answers of the
driver, and `os.Getenv("WATCHDIR")`. -/
structure Run where
  st : Time
  endTime : Time
  connectErr : Option String
  insert : InsertReply
  findLastErr : Option String
  updateErr : Option String
  watchdir : String

/-- The function `HandleDirWatcherTask`.  The result holds how the handler
ended (`ok err`: it returned `err`; `panicked`: a panic left the handler;
`crashed`: the process ended), the database afterwards and the calls made on
the repository.  The deferred `recover` intercepts a panic of the handler
goroutine raised after it was installed; the handler then returns nil. -/
def HandleDirWatcherTask (w : World) (run : Run) (db : DB) (payload : Payload) :
    Outcome (Option String) × DB × List RepoCall :=
  let result : Result := { Result.zero with StartTime := run.st.Unix }
  match Unmarshal payload with
  | .error err =>
    (.ok (some ("tasks.HandleDirWatcherTask: json.Unmarshal failed with " ++ err)), db, [])
  | .ok c =>
    let running : Result := { result with MagicWord := c.MagicWord, Status := "running" }
    match run.connectErr with
    | some err =>
      (.ok (some ("tasks.HandleDirWatcherTask: repository.NewRepository failed with " ++ err)),
        db, [])
    | none =>
      match AddResult db run.insert running with
      | .panicked v => (.panicked v, db, [.AddResult running, .Close])
      | .crashed => (.crashed, db, [.AddResult running])
      | .ok (db1, _, some err) => (.ok (some err), db1, [.AddResult running, .Close])
      | .ok (db1, oid, none) =>
        let recovered (v : String) (calls : List RepoCall) :
            Outcome (Option String) × DB × List RepoCall :=
          let result : Result :=
            { running with
              Status := "failed"
              EndTime := run.endTime.Unix
              RunTime := run.endTime.Sub run.st
              Error := v }
          let (db2, _) := UpdateResult db1 run.updateErr oid result
          (.ok none, db2, calls ++ [.UpdateResult oid result, .Close])
        match GetLastResult db1 run.findLastErr with
        | (_, some err) => recovered err [.AddResult running, .GetLastResult]
        | (prevRes, none) =>
          match WatchDirectory w run.watchdir c.MagicWord prevRes.Files with
          | .panicked v => recovered v [.AddResult running, .GetLastResult]
          | .crashed => (.crashed, db1, [.AddResult running, .GetLastResult])
          | .ok report =>
            let result : Result :=
              { running with
                EndTime := run.endTime.Unix
                RunTime := run.endTime.Sub run.st
                NewFiles := report.NewFiles
                Files := report.Files
                RemovedFiles := report.RemovedFiles
                Occurrence := report.Occurrence
                Status := "success" }
            let (db2, err) := UpdateResult db1 run.updateErr oid result
            (.ok err, db2,
              [.AddResult running, .GetLastResult, .UpdateResult oid result, .Close])

/-! ## `cmd/web/main.go`: the route `GET /results` -/

/-- The function `strconv.Atoi`: an optional sign, then one or more decimal
digits, and a value in the range of a 64-bit `int`. -/
def Atoi (s : String) : Option Int :=
  let digits : List Char :=
    match s.toList with
    | '-' :: rest => rest
    | '+' :: rest => rest
    | cs => cs
  if digits.isEmpty || !digits.all Char.isDigit then none
  else
    let n : Nat := digits.foldl (fun acc c => 10 * acc + (c.toNat - 48)) 0
    let v : Int := if s.toList.head? = some '-' then -(n : Int) else (n : Int)
    if v < -(2 ^ 63) ∨ 2 ^ 63 - 1 < v then none else some v

/-- The constant `DEFAULT_PAGINATION_SIZE`. -/
def DEFAULT_PAGINATION_SIZE : Int := 10

/-- The variable `paginationSize` of `setupRouter`. -/
def paginationSize (getenv : String → String) : Int :=
  match Atoi (getenv "PAGINATION_SIZE") with
  | some n => n
  | none => DEFAULT_PAGINATION_SIZE

/-- The `ApiResponse` struct; `Data` is nil or the list of results. -/
structure ApiResponse where
  Success : Bool
  Data : Option (List Result)
  Error : String
  deriving Repr, DecidableEq

/-- The handler of `GET /results`: `p` is `ctx.Query("page")` (empty when the
parameter is absent), `size` the pagination size.  The result is the HTTP
status, the body, and the calls made on the repository. -/
def handleGetResults (db : DB) (findErr : Option String) (size : Int) (p : String) :
    Nat × ApiResponse × List RepoCall :=
  let respond (page : Int) : Nat × ApiResponse × List RepoCall :=
    match GetResults db findErr page size with
    | (_, some _) =>
      (500, { Success := false, Data := none, Error := "Internal Server Error" },
        [.GetResults page size])
    | (results, none) =>
      (200, { Success := true, Data := results, Error := "" }, [.GetResults page size])
  if p ≠ "" then
    match Atoi p with
    | none =>
      (400, { Success := false, Data := none,
              Error := "page should be a positive integer (>1)" }, [])
    | some pi =>
      if pi < 1 then
        (400, { Success := false, Data := none,
                Error := "page should be a positive integer (>1)" }, [])
      else respond (pi - 1)
  else respond 0

/-! ### Example worlds -/

/-- A one-byte literal as a compiled pattern: every occurrence of the byte is a
match. -/
def literalByte (c : UInt8) : Regexp :=
  { FindAllIndex := fun b =>
      (List.range b.length).filterMap
        (fun i => if b.get? i = some c then some (i, i + 1) else none) }

/-- A regular-expression compiler that accepts exactly the one-character ASCII
patterns. -/
def compileLiteral (s : String) : Except String Regexp :=
  match s.toList with
  | [c] => if c.toNat < 128 then .ok (literalByte c.toNat.toUInt8)
           else .error "unsupported pattern"
  | _ => .error "unsupported pattern"

/-- Example tree: `/w` holds `a.txt` and `b.txt`. -/
def demoTree : Node := .dir "/w" none [.file "a.txt", .file "b.txt"]

/-- Example world: the tree `demoTree`, where `a.txt` has the content `fxf`
and `b.txt` the content `x`. -/
def demoWorld : World :=
  { Compile := compileLiteral
    ReadFile := fun f =>
      if f = "/w/a.txt" then .ok [102, 120, 102]
      else if f = "/w/b.txt" then .ok [120]
      else if f = "/w/sub/c.txt" then .ok [102]
      else .error ("open " ++ f ++ ": no such file or directory")
    Walk := fun root => walkNode root demoTree }

/-- Example tree: as `demoTree`, and `/w` also holds a directory `sub` with
the file `c.txt`; the directory cannot be read. -/
def deniedTree : Node :=
  .dir "/w" none
    [.file "a.txt", .file "b.txt",
      .dir "sub" (some "open /w/sub: permission denied") [.file "c.txt"]]

/-- Example world: the tree `deniedTree` with the files of `demoWorld`. -/
def deniedWorld : World :=
  { demoWorld with Walk := fun root => walkNode root deniedTree }

/-- Example tree: as `demoWorld`, and `/w` also holds the file `locked.txt`,
which the walk visits and `os.ReadFile` cannot open. -/
def lockedWorld : World :=
  { demoWorld with
    ReadFile := fun f =>
      if f = "/w/locked.txt" then .error "open /w/locked.txt: permission denied"
      else demoWorld.ReadFile f
    Walk := fun root =>
      walkNode root (.dir "/w" none [.file "a.txt", .file "b.txt", .file "locked.txt"]) }

/-- The `float64` 5. -/
def five : Float64 := ⟨0x4014000000000000⟩

/-- A `float64` NaN. -/
def nan : Float64 := ⟨0x7FF8000000000001⟩

/-- Example payload: `{"interval":5,"magicWord":"f"}`. -/
def demoPayload : Payload :=
  .object [("interval", .number five), ("magicWord", .string "f")]

/-- Example run: started at second 100, ended 1.5 s later in second 102, the
driver inserts under `_id` 7 and reports no error. -/
def demoRun : Run :=
  { st := ⟨100, 900000000, 5000000000⟩
    endTime := ⟨102, 400000000, 6500000000⟩
    connectErr := none
    insert := .inserted 7
    findLastErr := none
    updateErr := none
    watchdir := "/w" }

/-- Example database without documents. -/
def emptyDB : DB := { tasks := [], results := [] }

/-- Example database: a successful run that ended at second 10 and found
`/w/a.txt`, then a failed run that ended at second 20. -/
def failedLastDB : DB :=
  { tasks := []
    results :=
      [ (1, { Result.zero with
              StartTime := 9, EndTime := 10, Status := "success", MagicWord := "f",
              Occurrence := 2, Files := ["/w/a.txt"], NewFiles := ["/w/a.txt"] }),
        (2, { Result.zero with
              StartTime := 19, EndTime := 20, Status := "failed", MagicWord := "f",
              Error := "open /w/a.txt: permission denied" }) ] }

/-- Example database: `n` results with the start times `1, …, n`. -/
def rangeDB (n : Nat) : DB :=
  { tasks := []
    results := (List.range n).map
      (fun i => (i, { Result.zero with StartTime := (i : Int) + 1, Status := "success" })) }

/-- Example library: `ParseFloat` knows the texts `5`, `0` and `NaN`, and
`FormatV` writes them back. -/
def demoLib : Lib :=
  { ParseFloat := fun s =>
      if s = "5" then .ok five
      else if s = "0" then .ok Float64.zero
      else if s = "NaN" then .ok nan
      else .error ("strconv.ParseFloat: parsing " ++ s ++ ": invalid syntax")
    FormatV := fun x =>
      if x = five then "5" else if x = Float64.zero then "0" else "NaN" }

/-- Example environment: the fallbacks are interval `5` and search string `f`. -/
def demoGetenv (name : String) : String :=
  if name = "DEFAULT_TASK_INTERVAL" then "5"
  else if name = "DEFAULT_SEARCH_STRING" then "f"
  else ""

/-- Example environment whose fallback interval is the text `NaN`. -/
def nanGetenv (name : String) : String :=
  if name = "DEFAULT_TASK_INTERVAL" then "NaN"
  else if name = "DEFAULT_SEARCH_STRING" then "f"
  else ""

/-- The `MongoRepository` as a `Repository` whose state is the database, with a
driver that reports no error. -/
def mongoRepository (lib : Lib) (getenv : String → String) : Repository DB :=
  { GetTaskConfig := fun db => GetTaskConfig lib getenv db none none }

/-! # Theorems -/

/-! ### Lemmas on the pipeline -/

theorem mem_mapSet (m : StringSet) (k x : String) :
    x ∈ mapSet m k ↔ x ∈ m ∨ x = k := by
  unfold mapSet
  split
  · constructor
    · intro h; exact Or.inl h
    · rintro (h | h)
      · exact h
      · subst h; assumption
  · simp

theorem mem_foldl_mapSet (l : List String) (m : StringSet) (x : String) :
    x ∈ l.foldl mapSet m ↔ x ∈ m ∨ x ∈ l := by
  induction l generalizing m with
  | nil => simp
  | cons a l ih =>
    simp only [List.foldl_cons, ih, mem_mapSet, List.mem_cons]
    tauto

theorem nodup_mapSet (m : StringSet) (k : String) (h : m.Nodup) : (mapSet m k).Nodup := by
  unfold mapSet
  split
  · exact h
  · rw [List.nodup_append]
    refine ⟨h, List.nodup_singleton k, ?_⟩
    intro a ha hb
    simp only [List.mem_singleton] at hb
    subst hb
    contradiction

theorem nodup_foldl_mapSet (l : List String) (m : StringSet) (h : m.Nodup) :
    (l.foldl mapSet m).Nodup := by
  induction l generalizing m with
  | nil => simpa using h
  | cons a l ih => exact ih _ (nodup_mapSet m a h)

theorem visited_cons (c : WalkCall) (cs : List WalkCall) :
    visited (c :: cs) =
      (match c.info with
        | some info => if info.IsDir then [] else [c.path]
        | none => []) ++ visited cs := by
  unfold visited
  rw [List.filterMap_cons]
  cases h : c.info with
  | none => simp
  | some info => by_cases hd : info.IsDir <;> simp [hd]

/-- On a walk in which `Lstat` never failed, the callback runs for every
invocation and leaves the three variables in the state described. -/
theorem walkAll_of_info (prev : StringSet) (calls : List WalkCall) (st : WalkState)
    (h : ∀ c ∈ calls, c.info ≠ none) :
    walkAll prev st calls =
      .ok ({ foundFiles := (visited calls).foldl mapSet st.foundFiles
             newFiles := st.newFiles ++ (visited calls).filter (fun f => decide (f ∉ prev))
             sent := st.sent ++ visited calls }, none) := by
  induction calls generalizing st with
  | nil => simp [walkAll, visited]
  | cons c cs ih =>
    have hc : c.info ≠ none := h c (List.mem_cons_self _ _)
    have hcs : ∀ c ∈ cs, c.info ≠ none := fun d hd => h d (List.mem_cons_of_mem _ hd)
    cases hi : c.info with
    | none => exact absurd hi hc
    | some info =>
      by_cases hd : info.IsDir
      · simp [walkAll, walkFn, hi, hd, ih _ hcs, visited_cons]
      · by_cases hp : c.path ∈ prev
        · simp [walkAll, walkFn, hi, hd, hp, ih _ hcs, visited_cons]
        · simp [walkAll, walkFn, hi, hd, hp, ih _ hcs, visited_cons]

/-- The walk callback never returns an error: whenever the walk returns, the
error it returns is nil, so the `panic(err)` that follows the walk cannot run. -/
theorem walkAll_err_nil (prev : StringSet) (calls : List WalkCall) (st st' : WalkState)
    (e : Option String) (h : walkAll prev st calls = .ok (st', e)) : e = none := by
  induction calls generalizing st with
  | nil =>
    simp only [walkAll, Outcome.ok.injEq, Prod.mk.injEq] at h
    exact h.2.symm
  | cons c cs ih =>
    cases hi : c.info with
    | none => simp [walkAll, walkFn, hi] at h
    | some info =>
      by_cases hd : info.IsDir
      · simp only [walkAll, walkFn, hi, hd, if_true] at h
        exact ih _ h
      · simp only [walkAll, walkFn, hi, hd] at h
        exact ih _ h

theorem countAll_of_readable (w : World) (r : Regexp) (fs : List String)
    (h : ∀ f ∈ fs, readable w f = true) :
    countAll w r fs = .ok (fs.map (matchCount w r)) := by
  induction fs with
  | nil => simp [countAll]
  | cons f fs ih =>
    have hf : readable w f = true := h f (List.mem_cons_self _ _)
    have hfs : ∀ g ∈ fs, readable w g = true := fun g hg => h g (List.mem_cons_of_mem _ hg)
    unfold readable at hf
    cases hr : w.ReadFile f with
    | error e => simp [hr] at hf
    | ok b => simp [countAll, patternCount, matchCount, hr, ih hfs]

/-- The report of a scan without faults, in closed form. -/
theorem WatchDirectory_of_healthy (w : World) (dir s : String) (prevFiles : List String)
    (r : Regexp) (hc : w.Compile s = .ok r) (hw : Healthy w dir) :
    WatchDirectory w dir s prevFiles =
      .ok { Occurrence := ((visited (w.Walk dir)).map (matchCount w r)).sum
            NewFiles := (visited (w.Walk dir)).filter
              (fun f => decide (f ∉ prevFiles.foldl mapSet []))
            RemovedFiles := (prevFiles.foldl mapSet []).filter
              (fun k => decide (k ∉ (visited (w.Walk dir)).foldl mapSet []))
            Files := (visited (w.Walk dir)).foldl mapSet [] } := by
  unfold WatchDirectory
  simp only [hc]
  rw [walkAll_of_info _ _ _ hw.1]
  simp only [List.nil_append]
  rw [countAll_of_readable _ _ _ hw.2]
  simp only [← List.sum_eq_foldl]

theorem walkAll_ok_info (prev : StringSet) (calls : List WalkCall) (st st' : WalkState)
    (e : Option String) (h : walkAll prev st calls = .ok (st', e)) :
    ∀ c ∈ calls, c.info ≠ none := by
  induction calls generalizing st with
  | nil => intro c hc; cases hc
  | cons c cs ih =>
    cases hi : c.info with
    | none => simp [walkAll, walkFn, hi] at h
    | some info =>
      have hcs : ∀ d ∈ cs, d.info ≠ none := by
        by_cases hd : info.IsDir
        · simp only [walkAll, walkFn, hi, hd, if_true] at h
          exact ih _ h
        · simp only [walkAll, walkFn, hi, hd] at h
          exact ih _ h
      intro d hd
      rcases List.mem_cons.mp hd with rfl | hd
      · simp [hi]
      · exact hcs d hd

theorem countAll_ok_readable (w : World) (r : Regexp) (fs : List String) (ns : List Nat)
    (h : countAll w r fs = .ok ns) : ∀ f ∈ fs, readable w f = true := by
  induction fs generalizing ns with
  | nil => intro f hf; cases hf
  | cons f fs ih =>
    cases hr : w.ReadFile f with
    | error e => simp [countAll, patternCount, hr] at h
    | ok b =>
      cases hc : countAll w r fs with
      | ok ms =>
        intro g hg
        rcases List.mem_cons.mp hg with rfl | hg
        · simp [readable, hr]
        · exact ih ms hc g hg
      | panicked v => simp [countAll, patternCount, hr, hc] at h
      | crashed => simp [countAll, patternCount, hr, hc] at h

/-- `WatchDirectory` returns a Report only on a scan without faults: the
pattern compiled, `Lstat` never failed and every visited file was read. -/
theorem WatchDirectory_ok_healthy (w : World) (dir s : String) (prevFiles : List String)
    (R : Report) (h : WatchDirectory w dir s prevFiles = .ok R) :
    (∃ r, w.Compile s = .ok r) ∧ Healthy w dir := by
  unfold WatchDirectory at h
  cases hc : w.Compile s with
  | error e => simp [hc] at h
  | ok r =>
    refine ⟨⟨r, rfl⟩, ?_⟩
    simp only [hc] at h
    cases hwalk : walkAll (prevFiles.foldl mapSet []) ⟨[], [], []⟩ (w.Walk dir) with
    | panicked v => simp [hwalk] at h
    | crashed => simp [hwalk] at h
    | ok res =>
      obtain ⟨st, e⟩ := res
      have hinfo := walkAll_ok_info _ _ _ _ _ hwalk
      have he := walkAll_err_nil _ _ _ _ _ hwalk
      subst he
      have hst := walkAll_of_info (prevFiles.foldl mapSet []) (w.Walk dir) ⟨[], [], []⟩ hinfo
      rw [hwalk] at hst
      simp only [Outcome.ok.injEq, Prod.mk.injEq, and_true, List.nil_append] at hst
      refine ⟨hinfo, ?_⟩
      simp only [hwalk] at h
      cases hcount : countAll w r st.sent with
      | panicked v => simp [hcount] at h
      | crashed => simp [hcount] at h
      | ok ns =>
        have := countAll_ok_readable w r st.sent ns hcount
        rw [hst] at this
        exact this

/-- The callback does not look at the error the walk reports: erasing the
errors from the invocations leaves the outcome of `WatchDirectory` as it is. -/
theorem WatchDirectory_ignores_err (w : World) (dir s : String) (prevFiles : List String) :
    WatchDirectory (w.withWalk ((w.Walk dir).map (fun c => { c with err := none })))
        dir s prevFiles =
      WatchDirectory w dir s prevFiles := by
  have key : ∀ (prev : StringSet) (calls : List WalkCall) (st : WalkState),
      walkAll prev st (calls.map (fun c => { c with err := none })) =
        walkAll prev st calls := by
    intro prev calls
    induction calls with
    | nil => intro st; rfl
    | cons c cs ih =>
      intro st
      simp only [List.map_cons, walkAll, walkFn, ih]
  have hcount : ∀ (calls : List WalkCall) (r : Regexp) (fs : List String),
      countAll (w.withWalk calls) r fs = countAll w r fs := by
    intro calls r fs
    induction fs with
    | nil => rfl
    | cons f fs ih => simp only [countAll, ih]; rfl
  unfold WatchDirectory
  simp only [hcount]
  simp only [World.withWalk, key]

/-! ### The diff (C1) -/

/-- C1: on a scan without faults, `WatchDirectory` returns a Report whose lists,
read as sets, satisfy `Files = F2`, `NewFiles = F2 − F1`,
`RemovedFiles = F1 − F2` and `NewFiles ∩ RemovedFiles = ∅`, where `F1` is the
previous file list (duplicates allowed) and `F2` the set of non-directory paths
the walk visits. -/
theorem WatchDirectory_diff (w : World) (dir s : String) (F1 : List String) (r : Regexp)
    (hc : w.Compile s = .ok r) (hw : Healthy w dir) :
    ∃ R, WatchDirectory w dir s F1 = .ok R ∧
      ∀ x, (x ∈ R.Files ↔ x ∈ visited (w.Walk dir)) ∧
        (x ∈ R.NewFiles ↔ x ∈ visited (w.Walk dir) ∧ x ∉ F1) ∧
        (x ∈ R.RemovedFiles ↔ x ∈ F1 ∧ x ∉ visited (w.Walk dir)) ∧
        ¬ (x ∈ R.NewFiles ∧ x ∈ R.RemovedFiles) := by
  refine ⟨_, WatchDirectory_of_healthy w dir s F1 r hc hw, ?_⟩
  intro x
  simp only [List.mem_filter, mem_foldl_mapSet, List.not_mem_nil, false_or,
    decide_eq_true_eq]
  tauto

/-- Witness of C1 on the example tree, with a previous list that has a
duplicate and a path that is gone. -/
theorem WatchDirectory_diff_witness :
    ∃ R, WatchDirectory demoWorld "/w" "f" ["/w/b.txt", "/w/gone", "/w/b.txt"] = .ok R ∧
      ∀ x, (x ∈ R.Files ↔ x ∈ visited (demoWorld.Walk "/w")) ∧
        (x ∈ R.NewFiles ↔
          x ∈ visited (demoWorld.Walk "/w") ∧ x ∉ ["/w/b.txt", "/w/gone", "/w/b.txt"]) ∧
        (x ∈ R.RemovedFiles ↔
          x ∈ ["/w/b.txt", "/w/gone", "/w/b.txt"] ∧ x ∉ visited (demoWorld.Walk "/w")) ∧
        ¬ (x ∈ R.NewFiles ∧ x ∈ R.RemovedFiles) :=
  WatchDirectory_diff demoWorld "/w" "f" _ (literalByte 102) rfl (by decide)

/-! ### The occurrence total (C2) -/

theorem visited_perm {l₁ l₂ : List WalkCall} (h : l₁.Perm l₂) :
    (visited l₁).Perm (visited l₂) :=
  List.Perm.filterMap _ h

theorem healthy_withWalk (w : World) (dir : String) (calls : List WalkCall)
    (hp : calls.Perm (w.Walk dir)) (hw : Healthy w dir) :
    Healthy (w.withWalk calls) dir := by
  constructor
  · intro c hc
    exact hw.1 c (hp.mem_iff.mp hc)
  · intro f hf
    exact hw.2 f ((visited_perm hp).mem_iff.mp hf)

/-- C2: on a scan without faults, the `Occurrence` of the returned Report is the
sum of `patternCount(f, pattern)` over the non-directory paths `f` the walk
visits, and a walk that emits the same invocations in any other order yields a
Report with the same `Occurrence`. -/
theorem WatchDirectory_occurrence (w : World) (dir s : String) (prevFiles : List String)
    (r : Regexp) (hc : w.Compile s = .ok r) (hw : Healthy w dir) :
    ∃ R, WatchDirectory w dir s prevFiles = .ok R ∧
      R.Occurrence = ((visited (w.Walk dir)).map (matchCount w r)).sum ∧
      ∀ calls : List WalkCall, calls.Perm (w.Walk dir) →
        ∃ R', WatchDirectory (w.withWalk calls) dir s prevFiles = .ok R' ∧
          R'.Occurrence = R.Occurrence := by
  refine ⟨_, WatchDirectory_of_healthy w dir s prevFiles r hc hw, rfl, ?_⟩
  intro calls hp
  refine ⟨_, WatchDirectory_of_healthy (w.withWalk calls) dir s prevFiles r hc
    (healthy_withWalk w dir calls hp hw), ?_⟩
  exact List.Perm.sum_eq (List.Perm.map _ (visited_perm hp))

/-- Witness of C2 on the example tree: the pattern `f` occurs twice in `a.txt`
and not in `b.txt`. -/
theorem WatchDirectory_occurrence_witness :
    ∃ R, WatchDirectory demoWorld "/w" "f" [] = .ok R ∧
      R.Occurrence =
        ((visited (demoWorld.Walk "/w")).map (matchCount demoWorld (literalByte 102))).sum ∧
      ∀ calls : List WalkCall, calls.Perm (demoWorld.Walk "/w") →
        ∃ R', WatchDirectory (demoWorld.withWalk calls) "/w" "f" [] = .ok R' ∧
          R'.Occurrence = R.Occurrence :=
  WatchDirectory_occurrence demoWorld "/w" "f" [] (literalByte 102) rfl (by decide)

/-! ### Two scans of an unchanged tree (C3) -/

/-- C3: when a scan without faults returns `R1` and the same tree is scanned
again with `R1.Files` as the previous file list, the second Report has empty
`NewFiles` and `RemovedFiles` and the same `Occurrence`; the same holds for
every previous list that, as a set, equals the current file set, whatever its
size, order or duplicates. -/
theorem WatchDirectory_rescan (w : World) (dir s : String) (P : List String) (r : Regexp)
    (hc : w.Compile s = .ok r) (hw : Healthy w dir) :
    ∃ R1, WatchDirectory w dir s P = .ok R1 ∧
      (∃ R2, WatchDirectory w dir s R1.Files = .ok R2 ∧
        R2.NewFiles = [] ∧ R2.RemovedFiles = [] ∧ R2.Occurrence = R1.Occurrence) ∧
      ∀ F : List String, (∀ x, x ∈ F ↔ x ∈ R1.Files) →
        ∃ R2, WatchDirectory w dir s F = .ok R2 ∧
          R2.NewFiles = [] ∧ R2.RemovedFiles = [] ∧ R2.Occurrence = R1.Occurrence := by
  have key : ∀ F : List String,
      (∀ x, x ∈ F ↔ x ∈ (visited (w.Walk dir)).foldl mapSet []) →
      ∃ R2, WatchDirectory w dir s F = .ok R2 ∧
        R2.NewFiles = [] ∧ R2.RemovedFiles = [] ∧
        R2.Occurrence = ((visited (w.Walk dir)).map (matchCount w r)).sum := by
    intro F hF
    refine ⟨_, WatchDirectory_of_healthy w dir s F r hc hw, ?_, ?_, rfl⟩
    · rw [List.filter_eq_nil_iff]
      intro a ha
      have : a ∈ F := (hF a).mpr ((mem_foldl_mapSet _ _ _).mpr (Or.inr ha))
      simp [mem_foldl_mapSet, this]
    · rw [List.filter_eq_nil_iff]
      intro a ha
      have h1 : a ∈ F := by simpa [mem_foldl_mapSet] using ha
      have h2 := (hF a).mp h1
      simp [h2]
  refine ⟨_, WatchDirectory_of_healthy w dir s P r hc hw, ?_, ?_⟩
  · exact key _ (fun x => Iff.rfl)
  · intro F hF
    exact key F hF

/-- Witness of C3 on the example tree, starting from a previous list that
shares one path with the tree. -/
theorem WatchDirectory_rescan_witness :
    ∃ R1, WatchDirectory demoWorld "/w" "f" ["/w/b.txt", "/w/gone"] = .ok R1 ∧
      (∃ R2, WatchDirectory demoWorld "/w" "f" R1.Files = .ok R2 ∧
        R2.NewFiles = [] ∧ R2.RemovedFiles = [] ∧ R2.Occurrence = R1.Occurrence) ∧
      ∀ F : List String, (∀ x, x ∈ F ↔ x ∈ R1.Files) →
        ∃ R2, WatchDirectory demoWorld "/w" "f" F = .ok R2 ∧
          R2.NewFiles = [] ∧ R2.RemovedFiles = [] ∧ R2.Occurrence = R1.Occurrence :=
  WatchDirectory_rescan demoWorld "/w" "f" _ (literalByte 102) rfl (by decide)

/-! ### Traversal errors (C5) -/

/-- C5, the code at the failing input: `/w/sub` holds `c.txt` and cannot be
read.  The walk reports `permission denied` for `/w/sub`, the callback returns
nil for it, and `WatchDirectory` returns a Report whose `Files` lack
`/w/sub/c.txt`, as if `/w/sub` did not exist. -/
theorem WatchDirectory_swallows_walk_error :
    deniedWorld.Walk "/w" =
      [ ⟨"/w", some ⟨true⟩, none⟩,
        ⟨"/w/a.txt", some ⟨false⟩, none⟩,
        ⟨"/w/b.txt", some ⟨false⟩, none⟩,
        ⟨"/w/sub", some ⟨true⟩, some "open /w/sub: permission denied"⟩ ] ∧
    WatchDirectory deniedWorld "/w" "f" [] =
      .ok { Occurrence := 2
            NewFiles := ["/w/a.txt", "/w/b.txt"]
            RemovedFiles := []
            Files := ["/w/a.txt", "/w/b.txt"] } := by
  constructor
  · decide
  · decide

/-! ### Faults during a run (C4) -/

/-- A panic on a goroutine started by `WatchDirectory` is out of reach of the
deferred `recover` of the handler: the process ends, no `UpdateResult` is made
and the record of the run is left as it was inserted. -/
theorem HandleDirWatcherTask_crash (w : World) (run : Run) (db db1 : DB) (payload : Payload)
    (c : TaskConfig) (i : ObjectID)
    (hdec : Unmarshal payload = .ok c) (hconn : run.connectErr = none)
    (hadd : AddResult db run.insert
      { Result.zero with
        StartTime := run.st.Unix, MagicWord := c.MagicWord, Status := "running" } =
        .ok (db1, i, none))
    (hlast : run.findLastErr = none)
    (hscan : WatchDirectory w run.watchdir c.MagicWord (GetLastResult db1 none).1.Files =
      .crashed) :
    HandleDirWatcherTask w run db payload =
      (.crashed, db1,
        [.AddResult { Result.zero with
            StartTime := run.st.Unix, MagicWord := c.MagicWord, Status := "running" },
          .GetLastResult]) := by
  unfold HandleDirWatcherTask
  simp only [hdec, hconn, hadd, hlast]
  cases hg : topByEndTime db1.results with
  | none =>
    simp only [GetLastResult, hg] at hscan ⊢
    simp only [hscan]
  | some r0 =>
    simp only [GetLastResult, hg] at hscan ⊢
    simp only [hscan]

/-- A panic on the goroutine of the handler, raised once the start record is
stored, is recovered: one `UpdateResult` on the id of the run writes the status
`failed` with the panic value as error, and the handler returns nil. -/
theorem HandleDirWatcherTask_recover (w : World) (run : Run) (db db1 : DB)
    (payload : Payload) (c : TaskConfig) (i : ObjectID) (v : String)
    (hdec : Unmarshal payload = .ok c) (hconn : run.connectErr = none)
    (hadd : AddResult db run.insert
      { Result.zero with
        StartTime := run.st.Unix, MagicWord := c.MagicWord, Status := "running" } =
        .ok (db1, i, none))
    (hfault : run.findLastErr = some v ∨
      (run.findLastErr = none ∧
        WatchDirectory w run.watchdir c.MagicWord (GetLastResult db1 none).1.Files =
          .panicked v)) :
    HandleDirWatcherTask w run db payload =
      (.ok none,
        (UpdateResult db1 run.updateErr i
          { Result.zero with
            StartTime := run.st.Unix, EndTime := run.endTime.Unix,
            RunTime := run.endTime.Sub run.st, Status := "failed",
            MagicWord := c.MagicWord, Error := v }).1,
        [.AddResult { Result.zero with
            StartTime := run.st.Unix, MagicWord := c.MagicWord, Status := "running" },
          .GetLastResult,
          .UpdateResult i
            { Result.zero with
              StartTime := run.st.Unix, EndTime := run.endTime.Unix,
              RunTime := run.endTime.Sub run.st, Status := "failed",
              MagicWord := c.MagicWord, Error := v },
          .Close]) := by
  unfold HandleDirWatcherTask
  simp only [hdec, hconn, hadd]
  rcases hfault with hf | ⟨hf, hscan⟩
  · simp [hf, GetLastResult]
  · simp only [hf]
    cases hg : topByEndTime db1.results with
    | none =>
      simp only [GetLastResult, hg] at hscan ⊢
      simp [hscan]
    | some r0 =>
      simp only [GetLastResult, hg] at hscan ⊢
      simp [hscan]

/-- C4, the code at the failing input: the tree holds a file that cannot be
read.  The start record is stored, `patternCount` panics on the goroutine of
Node 2, the process ends, and the only record of the run still has the status
`running`, `endTime` 0 and no error; no `UpdateResult` is made. -/
theorem HandleDirWatcherTask_unreadable_file :
    readable lockedWorld "/w/locked.txt" = false ∧
    HandleDirWatcherTask lockedWorld demoRun emptyDB demoPayload =
      (.crashed,
        { tasks := []
          results :=
            [(7, { Result.zero with StartTime := 100, MagicWord := "f", Status := "running" })] },
        [.AddResult { Result.zero with StartTime := 100, MagicWord := "f", Status := "running" },
          .GetLastResult]) := by
  constructor
  · decide
  · decide

/-! ### A successful run (C6) -/

theorem AddResult_ok (db db1 : DB) (reply : InsertReply) (result : Result) (i : ObjectID)
    (h : AddResult db reply result = .ok (db1, i, none)) :
    db1 = { db with results := db.results ++ [(i, result)] } ∧ reply = .inserted i := by
  unfold AddResult at h
  cases reply with
  | failed err => simp at h
  | unacknowledged id err =>
    by_cases hm : id ∈ db.results.map Prod.fst
    · simp [hm] at h
    · simp [hm] at h
  | inserted id =>
    by_cases hm : id ∈ db.results.map Prod.fst
    · simp [hm] at h
    · simp only [hm, if_false, Outcome.ok.injEq, Prod.mk.injEq, and_true] at h
      obtain ⟨h1, h2⟩ := h
      subst h2
      exact ⟨h1.symm, rfl⟩

/-- C6: when the payload decodes to `c`, `AddResult` returns id `i`,
`GetLastResult` succeeds and the scan returns Report `R`, the handler has
appended one record with status `running`, the magic word of `c` and the start
time, then makes exactly one `UpdateResult` call, on id `i`, with the status
`success`, the same magic word and start time, the four fields of `R` and an
empty error, and returns what that call returns. -/
theorem HandleDirWatcherTask_success (w : World) (run : Run) (db db1 : DB)
    (payload : Payload) (c : TaskConfig) (i : ObjectID) (R : Report)
    (hdec : Unmarshal payload = .ok c) (hconn : run.connectErr = none)
    (hadd : AddResult db run.insert
      { Result.zero with
        StartTime := run.st.Unix, MagicWord := c.MagicWord, Status := "running" } =
        .ok (db1, i, none))
    (hlast : (GetLastResult db1 run.findLastErr).2 = none)
    (hscan : WatchDirectory w run.watchdir c.MagicWord
      (GetLastResult db1 run.findLastErr).1.Files = .ok R) :
    db1.results = db.results ++
      [(i, { StartTime := run.st.Unix, EndTime := 0, RunTime := 0, Status := "running",
             MagicWord := c.MagicWord, Occurrence := 0, Files := [], NewFiles := [],
             RemovedFiles := [], Error := "" })] ∧
    HandleDirWatcherTask w run db payload =
      ((.ok (UpdateResult db1 run.updateErr i
          { StartTime := run.st.Unix, EndTime := run.endTime.Unix,
            RunTime := run.endTime.Sub run.st, Status := "success",
            MagicWord := c.MagicWord, Occurrence := R.Occurrence, Files := R.Files,
            NewFiles := R.NewFiles, RemovedFiles := R.RemovedFiles, Error := "" }).2),
        (UpdateResult db1 run.updateErr i
          { StartTime := run.st.Unix, EndTime := run.endTime.Unix,
            RunTime := run.endTime.Sub run.st, Status := "success",
            MagicWord := c.MagicWord, Occurrence := R.Occurrence, Files := R.Files,
            NewFiles := R.NewFiles, RemovedFiles := R.RemovedFiles, Error := "" }).1,
        [.AddResult
            { StartTime := run.st.Unix, EndTime := 0, RunTime := 0, Status := "running",
              MagicWord := c.MagicWord, Occurrence := 0, Files := [], NewFiles := [],
              RemovedFiles := [], Error := "" },
          .GetLastResult,
          .UpdateResult i
            { StartTime := run.st.Unix, EndTime := run.endTime.Unix,
              RunTime := run.endTime.Sub run.st, Status := "success",
              MagicWord := c.MagicWord, Occurrence := R.Occurrence, Files := R.Files,
              NewFiles := R.NewFiles, RemovedFiles := R.RemovedFiles, Error := "" },
          .Close]) := by
  constructor
  · have h := (AddResult_ok _ _ _ _ _ hadd).1
    rw [h]
    rfl
  · unfold HandleDirWatcherTask
    simp only [hdec, hconn, hadd]
    cases hf : run.findLastErr with
    | some e => simp [hf, GetLastResult] at hlast
    | none =>
      rw [hf] at hscan
      cases hg : topByEndTime db1.results with
      | none =>
        simp only [GetLastResult, hg] at hscan ⊢
        simp only [hscan]
        rfl
      | some r0 =>
        simp only [GetLastResult, hg] at hscan ⊢
        simp only [hscan]
        rfl

/-- Witness of C6: the example run on the example tree with an empty database. -/
theorem HandleDirWatcherTask_success_witness :
    HandleDirWatcherTask demoWorld demoRun emptyDB demoPayload =
      (.ok none,
        { tasks := []
          results :=
            [(7, { StartTime := 100, EndTime := 102, RunTime := 1500000000,
                   Status := "success", MagicWord := "f", Occurrence := 2,
                   Files := ["/w/a.txt", "/w/b.txt"], NewFiles := ["/w/a.txt", "/w/b.txt"],
                   RemovedFiles := [], Error := "" })] },
        [.AddResult
            { StartTime := 100, EndTime := 0, RunTime := 0, Status := "running",
              MagicWord := "f", Occurrence := 0, Files := [], NewFiles := [],
              RemovedFiles := [], Error := "" },
          .GetLastResult,
          .UpdateResult 7
            { StartTime := 100, EndTime := 102, RunTime := 1500000000,
              Status := "success", MagicWord := "f", Occurrence := 2,
              Files := ["/w/a.txt", "/w/b.txt"], NewFiles := ["/w/a.txt", "/w/b.txt"],
              RemovedFiles := [], Error := "" },
          .Close]) :=
  (HandleDirWatcherTask_success demoWorld demoRun emptyDB
    { tasks := []
      results :=
        [(7, { Result.zero with StartTime := 100, MagicWord := "f", Status := "running" })] }
    demoPayload { Interval := five, MagicWord := "f" } 7
    { Occurrence := 2, NewFiles := ["/w/a.txt", "/w/b.txt"], RemovedFiles := [],
      Files := ["/w/a.txt", "/w/b.txt"] }
    rfl (by decide) (by decide) (by decide) (by decide)).2

/-! ### The previous file set (C7) -/

/-- C7, the code at the failing input: the collection holds a successful run
that ended at second 10 and a failed run that ended at second 20;
`GetLastResult` sorts by `endTime` without a filter on `status` and returns the
failed run, whose file list is empty. -/
theorem GetLastResult_returns_failed_run :
    (1, { Result.zero with
          StartTime := 9, EndTime := 10, Status := "success", MagicWord := "f",
          Occurrence := 2, Files := ["/w/a.txt"], NewFiles := ["/w/a.txt"] })
      ∈ failedLastDB.results ∧
    GetLastResult failedLastDB none =
      ({ Result.zero with
         StartTime := 19, EndTime := 20, Status := "failed", MagicWord := "f",
         Error := "open /w/a.txt: permission denied" }, none) := by
  constructor
  · decide
  · decide

/-- The run that follows a failed run takes its previous file set from the
failed record: on the unchanged example tree both files are reported as new,
although `/w/a.txt` was in the file set of the last successful run. -/
theorem HandleDirWatcherTask_after_failed_run :
    (HandleDirWatcherTask demoWorld demoRun failedLastDB demoPayload).2.1.results.map
        (fun d => (d.2.Status, d.2.NewFiles)) =
      [("success", ["/w/a.txt"]), ("failed", []),
        ("success", ["/w/a.txt", "/w/b.txt"])] := by
  decide

/-! ### Pagination of `GET /results` (C8) -/

theorem wrap64_of_range (x : Int) (h0 : 0 ≤ x) (h1 : x < 2 ^ 63) : wrap64 x = x := by
  unfold wrap64
  rw [Int.emod_eq_of_lt (by omega) (by omega)]
  omega

theorem sortByStartTimeDesc_sorted (rs : List Result) :
    (sortByStartTimeDesc rs).Sorted (fun a b => a.StartTime ≥ b.StartTime) :=
  @List.sorted_insertionSort Result (fun a b => a.StartTime ≥ b.StartTime) _
    ⟨fun a b => le_total b.StartTime a.StartTime⟩
    ⟨fun _ _ _ hab hbc => le_trans hbc hab⟩ rs

theorem sortByStartTimeDesc_perm (rs : List Result) : (sortByStartTimeDesc rs).Perm rs :=
  List.perm_insertionSort _ rs

theorem Atoi_empty : Atoi "" = none := by decide

/-- C8, amended: the ranking is a permutation of the stored results in
descending `startTime` order; for a page value that parses to `p ≥ 1`, a page
size `s > 0` and `(p − 1)·s < 2^63`, the response is 200 and carries exactly the
results of rank `(p − 1)·s + 1` through `min(p·s, n)` of that ranking, after one
store read; a non-empty page value that does not parse as an `int` or is `< 1`
is answered with 400 and no store read. -/
theorem handleGetResults_page (db : DB) (size : Int) (q : String) :
    ((sortByStartTimeDesc (db.results.map Prod.snd)).Sorted
        (fun a b => a.StartTime ≥ b.StartTime) ∧
      (sortByStartTimeDesc (db.results.map Prod.snd)).Perm (db.results.map Prod.snd)) ∧
    (∀ p : Int, Atoi q = some p → 1 ≤ p → 0 < size → (p - 1) * size < 2 ^ 63 →
      handleGetResults db none size q =
        (200,
          { Success := true
            Data := some (((sortByStartTimeDesc (db.results.map Prod.snd)).drop
              ((p - 1) * size).toNat).take size.toNat)
            Error := "" },
          [.GetResults (p - 1) size])) ∧
    (∀ findErr : Option String, q ≠ "" →
      (Atoi q = none ∨ ∃ p : Int, Atoi q = some p ∧ p < 1) →
      handleGetResults db findErr size q =
        (400,
          { Success := false, Data := none,
            Error := "page should be a positive integer (>1)" },
          [])) := by
  refine ⟨⟨sortByStartTimeDesc_sorted _, sortByStartTimeDesc_perm _⟩, ?_, ?_⟩
  · intro p hp h1 hs hb
    have hq : q ≠ "" := by
      intro h
      rw [h, Atoi_empty] at hp
      cases hp
    have hnn : 0 ≤ (p - 1) * size := Int.mul_nonneg (by omega) (by omega)
    have hlt : ¬ p < 1 := by omega
    have hsz : ¬ size = 0 := by omega
    have hna : size.natAbs = size.toNat := by omega
    have hskip : ¬ (p - 1) * size < 0 := by omega
    simp only [handleGetResults, GetResults, hq, ne_eq, not_false_eq_true, if_true, hp, hlt,
      if_false, wrap64_of_range _ hnn hb, hskip, hsz, hna]
  · intro findErr hq h
    rcases h with h | ⟨p, hp, hlt⟩
    · simp only [handleGetResults, hq, ne_eq, not_false_eq_true, if_true, h]
    · simp only [handleGetResults, hq, ne_eq, not_false_eq_true, if_true, hp, hlt]

/-- Witness of C8: page 2 with size 10 over 25 stored results (start times
1 to 25) returns the results ranked 11 to 20 (start times 15 down to 6), and the
page value `0` is rejected. -/
theorem handleGetResults_page_witness :
    handleGetResults (rangeDB 25) none 10 "2" =
      (200,
        { Success := true
          Data := some ((List.range 10).map (fun k =>
            { Result.zero with StartTime := 15 - (k : Int), Status := "success" }))
          Error := "" },
        [.GetResults 1 10]) ∧
    handleGetResults (rangeDB 25) (some "server selection error") 10 "0" =
      (400,
        { Success := false, Data := none, Error := "page should be a positive integer (>1)" },
        []) :=
  ⟨((handleGetResults_page (rangeDB 25) 10 "2").2.1 2 (by decide) (by decide) (by decide)
      (by decide)).trans (by decide),
    (handleGetResults_page (rangeDB 25) 10 "0").2.2 _ (by decide)
      (Or.inr ⟨0, by decide, by decide⟩)⟩

/-- C8 as stated fails: the page number `1844674407370955163` parses, and with
page size 10 the `int64` product `page * size` wraps around to 4, so over 5
stored results the response carries the result of rank 5, where the claim has
no result since `(p − 1)·s ≥ n`. -/
theorem handleGetResults_skip_wraps :
    Atoi "1844674407370955163" = some 1844674407370955163 ∧
    (5 : Int) ≤ (1844674407370955163 - 1) * 10 ∧
    handleGetResults (rangeDB 5) none 10 "1844674407370955163" =
      (200,
        { Success := true
          Data := some [{ Result.zero with StartTime := 1, Status := "success" }]
          Error := "" },
        [.GetResults 1844674407370955162 10]) := by
  refine ⟨by decide, by decide, by decide⟩

/-! ### The default task configuration (C9) -/

/-- Reading back what was written under the `bson` tags: the magic word is the
same, and so is the interval, except that an interval `-0.0` is left out like
`0.0` and read back as `0.0`. -/
theorem TaskDoc.decode_encode (c : TaskConfig) :
    (TaskDoc.decode (TaskDoc.encode c)).MagicWord = c.MagicWord ∧
    ((TaskDoc.decode (TaskDoc.encode c)).Interval = c.Interval ∨
      (c.Interval.isZero = true ∧
        (TaskDoc.decode (TaskDoc.encode c)).Interval = Float64.zero)) := by
  unfold TaskDoc.decode TaskDoc.encode
  by_cases hz : c.Interval.isZero = true
  · simp [hz]
  · simp [hz]

/-- C9: on a store without TaskConfig whose driver reports no error, when the
fallback interval parses to `d`, the first `GetTaskConfig` returns
`{Interval: d, MagicWord: w}` and leaves it as the one document of `tasks`; the
second `GetTaskConfig` returns the same magic word and interval (a `-0.0` comes
back as `0.0`) and leaves the store as it is; when the fallback interval does
not parse, `GetTaskConfig` returns the error and leaves the store as it is. -/
theorem GetTaskConfig_default (lib : Lib) (getenv : String → String) (db : DB)
    (hempty : db.tasks = []) :
    (∀ d : Float64, lib.ParseFloat (getenv "DEFAULT_TASK_INTERVAL") = .ok d →
      GetTaskConfig lib getenv db none none =
        ({ db with tasks := [TaskDoc.encode
              { Interval := d, MagicWord := getenv "DEFAULT_SEARCH_STRING" }] },
          { Interval := d, MagicWord := getenv "DEFAULT_SEARCH_STRING" }, none) ∧
      ∃ c2 : TaskConfig,
        GetTaskConfig lib getenv (GetTaskConfig lib getenv db none none).1 none none =
          ((GetTaskConfig lib getenv db none none).1, c2, none) ∧
        c2.MagicWord = getenv "DEFAULT_SEARCH_STRING" ∧
        (c2.Interval = d ∨ (d.isZero = true ∧ c2.Interval = Float64.zero))) ∧
    (∀ e : String, lib.ParseFloat (getenv "DEFAULT_TASK_INTERVAL") = .error e →
      GetTaskConfig lib getenv db none none = (db, TaskConfig.zero, some e)) := by
  constructor
  · intro d hd
    have h1 : GetTaskConfig lib getenv db none none =
        ({ db with tasks := [TaskDoc.encode
              { Interval := d, MagicWord := getenv "DEFAULT_SEARCH_STRING" }] },
          { Interval := d, MagicWord := getenv "DEFAULT_SEARCH_STRING" }, none) := by
      simp only [GetTaskConfig, hempty, hd, cappedInsert]
    refine ⟨h1, ?_⟩
    rw [h1]
    refine ⟨TaskDoc.decode (TaskDoc.encode
      { Interval := d, MagicWord := getenv "DEFAULT_SEARCH_STRING" }), ?_, ?_⟩
    · simp only [GetTaskConfig]
    · exact TaskDoc.decode_encode { Interval := d, MagicWord := getenv "DEFAULT_SEARCH_STRING" }
  · intro e he
    simp only [GetTaskConfig, hempty, he]

/-- Witness of C9: the fallbacks `5` and `f` on the empty example database. -/
theorem GetTaskConfig_default_witness :
    GetTaskConfig demoLib demoGetenv emptyDB none none =
        ({ tasks := [{ interval := some five, magicWord := "f" }], results := [] },
          { Interval := five, MagicWord := "f" }, none) ∧
    ∃ c2 : TaskConfig,
      GetTaskConfig demoLib demoGetenv
          (GetTaskConfig demoLib demoGetenv emptyDB none none).1 none none =
        ((GetTaskConfig demoLib demoGetenv emptyDB none none).1, c2, none) ∧
      c2.MagicWord = "f" ∧
      (c2.Interval = five ∨ (five.isZero = true ∧ c2.Interval = Float64.zero)) :=
  (GetTaskConfig_default demoLib demoGetenv emptyDB rfl).1 five rfl

/-! ### The recurrence rule (C10) -/

theorem Unmarshal_Marshal (c : TaskConfig) (payload : Payload)
    (h : Marshal c = .ok payload) :
    ∃ c' : TaskConfig, Unmarshal payload = .ok c' ∧ c'.MagicWord = c.MagicWord ∧
      (c'.Interval = c.Interval ∨ (c.Interval.isZero = true ∧ c'.Interval = Float64.zero)) := by
  have k1 : keyMatches "interval" "interval" = true := by decide
  have k2 : keyMatches "interval" "magicWord" = false := by decide
  have k3 : keyMatches "magicWord" "magicWord" = true := by decide
  unfold Marshal at h
  by_cases hf : c.Interval.isFinite = true
  · simp only [hf, if_true, Except.ok.injEq] at h
    subst h
    by_cases hz : c.Interval.isZero = true
    · refine ⟨{ Interval := Float64.zero, MagicWord := c.MagicWord }, ?_, rfl, Or.inr ⟨hz, rfl⟩⟩
      simp [Unmarshal, decodeMember, hz, k2, k3, TaskConfig.zero]
    · refine ⟨{ Interval := c.Interval, MagicWord := c.MagicWord }, ?_, rfl, Or.inl rfl⟩
      simp [Unmarshal, decodeMember, hz, k1, k2, k3, TaskConfig.zero]
  · simp [hf] at h

/-- C10, amended: if `GetTaskConfig` fails, `GetConfigs` returns that error and
no rule; if it returns `c` with a finite interval, `GetConfigs` returns exactly
one rule, of type `dirwatcher:run`, with Cronspec `@every <c.Interval>s` and a
payload that `json.Unmarshal` decodes to the magic word of `c` and to the
interval of `c` (a `-0.0` is decoded as `0.0`); if the interval of `c` is NaN
or infinite, `GetConfigs` returns the error of `json.Marshal` and no rule. -/
theorem GetConfigs_rule {σ : Type} (lib : Lib) (repo : Repository σ) (st : σ) :
    (∀ (st' : σ) (c : TaskConfig) (e : String),
      repo.GetTaskConfig st = (st', c, some e) →
      GetConfigs lib repo st = (st', [], some e)) ∧
    (∀ (st' : σ) (c : TaskConfig),
      repo.GetTaskConfig st = (st', c, none) → c.Interval.isFinite = true →
      ∃ payload : Payload,
        GetConfigs lib repo st =
          (st',
            [{ Cronspec := "@every " ++ lib.FormatV c.Interval ++ "s"
               Task := { typename := "dirwatcher:run", payload := payload } }],
            none) ∧
        ∃ c' : TaskConfig, Unmarshal payload = .ok c' ∧ c'.MagicWord = c.MagicWord ∧
          (c'.Interval = c.Interval ∨
            (c.Interval.isZero = true ∧ c'.Interval = Float64.zero))) ∧
    (∀ (st' : σ) (c : TaskConfig),
      repo.GetTaskConfig st = (st', c, none) → c.Interval.isFinite = false →
      ∃ e : String, GetConfigs lib repo st = (st', [], some e)) := by
  refine ⟨?_, ?_, ?_⟩
  · intro st' c e h
    simp only [GetConfigs, h]
  · intro st' c h hf
    cases hm : Marshal c with
    | error e => simp [Marshal, hf] at hm
    | ok payload =>
      refine ⟨payload, ?_, Unmarshal_Marshal c payload hm⟩
      simp only [GetConfigs, h, hm, DirWatcherTask, List.nil_append]
  · intro st' c h hf
    refine ⟨"json: unsupported value", ?_⟩
    simp [GetConfigs, h, Marshal, hf]

/-- Witness of C10: the `MongoRepository` on a database that holds the
configuration `{interval: 5, magicWord: "f"}`. -/
theorem GetConfigs_rule_witness :
    ∃ payload : Payload,
      GetConfigs demoLib (mongoRepository demoLib demoGetenv)
          { tasks := [{ interval := some five, magicWord := "f" }], results := [] } =
        ({ tasks := [{ interval := some five, magicWord := "f" }], results := [] },
          [{ Cronspec := "@every " ++ demoLib.FormatV five ++ "s"
             Task := { typename := "dirwatcher:run", payload := payload } }],
          none) ∧
      ∃ c' : TaskConfig, Unmarshal payload = .ok c' ∧ c'.MagicWord = "f" ∧
        (c'.Interval = five ∨ (five.isZero = true ∧ c'.Interval = Float64.zero)) :=
  (GetConfigs_rule demoLib (mongoRepository demoLib demoGetenv)
    { tasks := [{ interval := some five, magicWord := "f" }], results := [] }).2.1
    _ { Interval := five, MagicWord := "f" } rfl (by decide)

/-- C10 as stated fails: with the fallback interval `NaN`, `GetTaskConfig`
succeeds and returns a configuration, and `GetConfigs` returns no rule but the
error of `json.Marshal`. -/
theorem GetConfigs_nan_interval :
    (mongoRepository demoLib nanGetenv).GetTaskConfig emptyDB =
      ({ tasks := [{ interval := some nan, magicWord := "f" }], results := [] },
        { Interval := nan, MagicWord := "f" }, none) ∧
    GetConfigs demoLib (mongoRepository demoLib nanGetenv) emptyDB =
      ({ tasks := [{ interval := some nan, magicWord := "f" }], results := [] },
        [], some "json: unsupported value") := by
  constructor
  · decide
  · decide

/-! ### The run time of a terminal Result (C11) -/

/-- Every Result the handler passes to `UpdateResult` is terminal and carries
the whole seconds of the two clock readings and their `Sub`. -/
theorem HandleDirWatcherTask_update_times (w : World) (run : Run) (db : DB)
    (payload : Payload) (i : ObjectID) (r : Result)
    (h : RepoCall.UpdateResult i r ∈ (HandleDirWatcherTask w run db payload).2.2) :
    (r.Status = "success" ∨ r.Status = "failed") ∧
      r.StartTime = run.st.Unix ∧ r.EndTime = run.endTime.Unix ∧
      r.RunTime = run.endTime.Sub run.st := by
  unfold HandleDirWatcherTask at h
  cases hdec : Unmarshal payload with
  | error e => simp [hdec] at h
  | ok c =>
    simp only [hdec] at h
    cases hconn : run.connectErr with
    | some e => simp [hconn] at h
    | none =>
      simp only [hconn] at h
      cases hadd : AddResult db run.insert
          { Result.zero with
            StartTime := run.st.Unix, MagicWord := c.MagicWord, Status := "running" } with
      | panicked v => simp [hadd] at h
      | crashed => simp [hadd] at h
      | ok res =>
        obtain ⟨db1, oid, err⟩ := res
        cases err with
        | some e => simp [hadd] at h
        | none =>
          simp only [hadd] at h
          cases hlast : GetLastResult db1 run.findLastErr with
          | mk prevRes lastErr =>
            cases lastErr with
            | some e =>
              simp [hlast] at h
              obtain ⟨-, rfl⟩ := h
              simp
            | none =>
              simp only [hlast] at h
              cases hscan : WatchDirectory w run.watchdir c.MagicWord prevRes.Files with
              | panicked v =>
                simp [hscan] at h
                obtain ⟨-, rfl⟩ := h
                simp
              | crashed => simp [hscan] at h
              | ok report =>
                simp [hscan] at h
                obtain ⟨-, rfl⟩ := h
                simp

/-- C11, amended: for every terminal Result written by `HandleDirWatcherTask`
(success or failed), with end instant not before the start instant and a wall
clock that was not adjusted in between, `runTime` is the elapsed time between
the two instants, sub-second part included (here in nanoseconds): it is
`endTime − startTime` plus the difference of the sub-second parts, so it lies
within one second of `endTime − startTime` and equals it exactly when both
instants have the same sub-second part. -/
theorem HandleDirWatcherTask_runTime (w : World) (run : Run) (db : DB)
    (payload : Payload) (i : ObjectID) (r : Result)
    (h : RepoCall.UpdateResult i r ∈ (HandleDirWatcherTask w run db payload).2.2)
    (hn0 : run.st.nsec < 1000000000) (hn1 : run.endTime.nsec < 1000000000)
    (hle : run.st.wallNanos ≤ run.endTime.wallNanos)
    (hclock : run.endTime.mono - run.st.mono =
      run.endTime.wallNanos - run.st.wallNanos)
    (hrange : run.endTime.wallNanos - run.st.wallNanos < 2 ^ 63) :
    (r.Status = "success" ∨ r.Status = "failed") ∧
    r.RunTime = run.endTime.wallNanos - run.st.wallNanos ∧
    r.RunTime =
      (r.EndTime - r.StartTime) * 1000000000 +
        ((run.endTime.nsec : Int) - (run.st.nsec : Int)) ∧
    (r.EndTime - r.StartTime - 1) * 1000000000 < r.RunTime ∧
    r.RunTime < (r.EndTime - r.StartTime + 1) * 1000000000 ∧
    (r.RunTime = (r.EndTime - r.StartTime) * 1000000000 ↔
      run.endTime.nsec = run.st.nsec) := by
  obtain ⟨hs, h0, h1, hr⟩ := HandleDirWatcherTask_update_times w run db payload i r h
  have h63 : (2 : Int) ^ 63 = 9223372036854775808 := by norm_num
  rw [h63] at hrange
  have hsub : run.endTime.Sub run.st = run.endTime.wallNanos - run.st.wallNanos := by
    unfold Time.Sub
    rw [h63]
    unfold Duration
    omega
  rw [hr, h0, h1, hsub]
  unfold Time.wallNanos Time.Unix
  unfold Time.wallNanos at hle hrange
  unfold Duration
  refine ⟨hs, rfl, ?_, ?_, ?_, ?_⟩ <;> omega

/-- Witness of C11: the example run starts at 100.9 s and ends at 102.4 s; the
success record has start time 100, end time 102 and a run time of 1.5 s. -/
theorem HandleDirWatcherTask_runTime_witness :
    ∃ r : Result,
      RepoCall.UpdateResult 7 r ∈
        (HandleDirWatcherTask demoWorld demoRun emptyDB demoPayload).2.2 ∧
      r.Status = "success" ∧ r.StartTime = 100 ∧ r.EndTime = 102 ∧
      r.RunTime = 1500000000 ∧
      r.RunTime = (r.EndTime - r.StartTime) * 1000000000 + ((400000000 : Int) - 900000000) :=
  ⟨{ StartTime := 100, EndTime := 102, RunTime := 1500000000, Status := "success",
     MagicWord := "f", Occurrence := 2, Files := ["/w/a.txt", "/w/b.txt"],
     NewFiles := ["/w/a.txt", "/w/b.txt"], RemovedFiles := [], Error := "" },
    by decide, rfl, rfl, rfl, rfl,
    (HandleDirWatcherTask_runTime demoWorld demoRun emptyDB demoPayload 7 _ (by decide)
      (by decide) (by decide) (by decide) (by decide) (by decide)).2.2.1⟩

/-- C11 as stated fails: on the example run (start instant 100.9 s, end
instant 102.4 s) the success record written by the handler has
`endTime − startTime` = 2 s and a run time of 1.5 s. -/
theorem HandleDirWatcherTask_runTime_fraction :
    demoRun.st.wallNanos ≤ demoRun.endTime.wallNanos ∧
    ∃ r : Result,
      RepoCall.UpdateResult 7 r ∈
        (HandleDirWatcherTask demoWorld demoRun emptyDB demoPayload).2.2 ∧
      r.Status = "success" ∧
      (r.EndTime - r.StartTime) * 1000000000 = 2000000000 ∧
      r.RunTime = 1500000000 ∧
      r.RunTime ≠ (r.EndTime - r.StartTime) * 1000000000 :=
  ⟨by decide,
    { StartTime := 100, EndTime := 102, RunTime := 1500000000, Status := "success",
      MagicWord := "f", Occurrence := 2, Files := ["/w/a.txt", "/w/b.txt"],
      NewFiles := ["/w/a.txt", "/w/b.txt"], RemovedFiles := [], Error := "" },
    by decide, rfl, by decide, rfl, by decide⟩

end Dirwatcher
